import Mathlib

/-!
# Verification of `SliceLayerCPU` (HugeCTR, `cpu/layers/slice_layer_cpu.hpp`)

The repository fragment declares `SliceLayerCPU<T>`: a layer slicing one 2D
input tensor into several 2D output tensors along contiguous column ranges
(forward pass), and scattering output gradients back into the input buffer
with additive accumulation at overlapping columns (backward pass).

The header under `src/` only declares the constructor, `fprop` and `bprop`;
their bodies live elsewhere in the repository.  We therefore embed the data
model faithfully from the header declaration (member tensors, ranges,
`get_in_tensors`, which is defined inline in the header) and model the
missing method bodies from the specification, as noted on each definition.

Matrices are row-major lists of rows; the element type `T` is modelled as
`Int` (exact arithmetic standing for the numeric template parameter `T`).
-/

namespace HugeCTR

/-- Element type of the layer: the C++ template parameter `T`,
modelled with exact integer arithmetic. -/
abbrev T := Int

/-- A 2D tensor (`Tensor2<T>`): a row-major list of rows. -/
abbrev Tensor2 := List (List T)

/-- `Tensors2<T>`: a list of 2D tensors. -/
abbrev Tensors2 := List Tensor2

/-- Modelled from the spec: the row slice `input[r, start : start+width]`
copied by the forward pass (`SliceLayerCPU::fprop`, body not in `src/`). -/
def sliceRow (s w : Nat) (row : List T) : List T :=
  (row.drop s).take w

/-- Modelled from the spec: forward copy for one range — every row `r` of
the output holds `input[r, s : s+w]`. -/
def fpropRange (input : Tensor2) (s w : Nat) : Tensor2 :=
  input.map (sliceRow s w)

/-- Modelled from the spec: `SliceLayerCPU::fprop` (body not in `src/`) —
for each range `(s, e)` produce the output tensor of width `e - s`. -/
def fprop (input : Tensor2) (ranges : List (Nat × Nat)) : Tensors2 :=
  ranges.map (fun p => fpropRange input p.1 (p.2 - p.1))

/-- The all-zero `R × C` matrix (reset state of the input-gradient buffer). -/
def zeroMat (R C : Nat) : Tensor2 :=
  List.replicate R (List.replicate C (0 : T))

/-- Modelled from the spec: add the gradient row `g` (of one output tensor)
into one input-gradient row at column offset `s`:
`row[c] += g[c - s]` for `s ≤ c < s + g.length`. -/
def addRowAt (s : Nat) (g : List T) (row : List T) : List T :=
  row.mapIdx (fun c x => x + if s ≤ c then g.getD (c - s) 0 else 0)

/-- Modelled from the spec: accumulate one output-gradient tensor `og` into
the input-gradient accumulator `acc` at column offset `s`. -/
def addGrad (s : Nat) (og : Tensor2) (acc : Tensor2) : Tensor2 :=
  acc.mapIdx (fun r row => addRowAt s (og.getD r []) row)

/-- Modelled from the spec: `SliceLayerCPU::bprop` (body not in `src/`) over
an explicit list of `(range, output_grad)` pairs — reset the input-gradient
buffer to zero, then accumulate each output gradient at its range offset. -/
def bpropList (R C : Nat) (l : List ((Nat × Nat) × Tensor2)) : Tensor2 :=
  l.foldl (fun acc p => addGrad p.1.1 p.2 acc) (zeroMat R C)

/-- Modelled from the spec: `SliceLayerCPU::bprop` — zero the input-gradient
buffer, then for each range `i` add `output_grad_i` into columns
`[start_i, end_i)`. -/
def bprop (R C : Nat) (ranges : List (Nat × Nat)) (ograds : Tensors2) : Tensor2 :=
  bpropList R C (ranges.zip ograds)

/-- The per-layer state of `SliceLayerCPU<T>`: its member tensors as
declared in the header.  `in_tensors_` doubles as the input-gradient buffer
during `bprop`, and `out_tensors_` as the output-gradient buffers, following
the buffer-sharing convention of the framework. -/
structure SliceLayerCPUState where
  rows : Nat
  cols : Nat
  weights_ : Tensors2
  wgrad_ : Tensors2
  in_tensors_ : Tensor2
  out_tensors_ : Tensors2
  ranges_ : List (Nat × Nat)
  deriving Repr, DecidableEq

/-- Errors surfaced at construction. -/
inductive SliceError where
  | InvalidRangeError
  deriving Repr, DecidableEq

/-- A single C++ `std::pair<int,int>` range is valid for `C` input columns:
`0 ≤ start < end ≤ C`. -/
def validRange (C : Nat) (p : Int × Int) : Bool :=
  0 ≤ p.1 && p.1 < p.2 && p.2 ≤ (C : Int)

/-- Modelled from the spec: `SliceLayerCPU::SliceLayerCPU` (body not in
`src/`) — validate every range, fail with `InvalidRangeError` otherwise;
on success store the ranges, allocate one output buffer of shape
`(R, end - start)` per range, and leave `weights_` and `wgrad_` empty. -/
def construct (R C : Nat) (input : Tensor2) (ranges : List (Int × Int)) :
    Except SliceError SliceLayerCPUState :=
  if ranges.all (validRange C) then
    Except.ok
      { rows := R
        cols := C
        weights_ := []
        wgrad_ := []
        in_tensors_ := input
        out_tensors_ := ranges.map (fun p => zeroMat R (p.2 - p.1).toNat)
        ranges_ := ranges.map (fun p => (p.1.toNat, p.2.toNat)) }
  else
    Except.error SliceError.InvalidRangeError

/-- From the header (defined inline in `src/`): `get_in_tensors` returns the
member `in_tensors_` regardless of the `is_train` flag. -/
def get_in_tensors (_is_train : Bool) (st : SliceLayerCPUState) : Tensor2 :=
  st.in_tensors_

/-- Modelled from the spec: one `fprop(is_train)` call as a state
transformer — writes the output buffers from the (flag-selected) input
tensor, touching nothing else. -/
def fpropStep (is_train : Bool) (st : SliceLayerCPUState) : SliceLayerCPUState :=
  { st with out_tensors_ := fprop (get_in_tensors is_train st) st.ranges_ }

/-- Modelled from the spec: one `bprop()` call as a state transformer —
zeroes and then accumulates gradients into the input buffer, reading the
output buffers as output gradients. -/
def bpropStep (st : SliceLayerCPUState) : SliceLayerCPUState :=
  { st with in_tensors_ := bprop st.rows st.cols st.ranges_ st.out_tensors_ }

/-- A tensor has shape `R × C`: `R` rows, each of length `C`. -/
def hasShape (m : Tensor2) (R C : Nat) : Prop :=
  m.length = R ∧ ∀ row ∈ m, row.length = C

instance (m : Tensor2) (R C : Nat) : Decidable (hasShape m R C) := by
  unfold hasShape
  infer_instance

/-- Reassembly of a full `R × C` matrix from per-range outputs: entry
`(r, c)` is taken from the first range containing column `c`, at column
offset `c - start`; columns covered by no range read `0`. -/
def reassemble (R C : Nat) (ranges : List (Nat × Nat)) (outs : Tensors2) : Tensor2 :=
  (List.range R).map (fun r =>
    (List.range C).map (fun c =>
      match (ranges.zip outs).find? (fun p => decide (p.1.1 ≤ c ∧ c < p.1.2)) with
      | some p => (p.2.getD r []).getD (c - p.1.1) 0
      | none => 0))

/-- The contribution of one `(range, output_grad)` pair to input-gradient
entry `(r, c)` under `addGrad`. -/
def contrib (r c : Nat) (p : (Nat × Nat) × Tensor2) : T :=
  if p.1.1 ≤ c then (p.2.getD r []).getD (c - p.1.1) 0 else 0

/-- Shape well-formedness of a layer state: the input buffer is
`rows × cols`, there is one output buffer per range with shape
`rows × (end − start)`, and every range satisfies `start ≤ end ≤ cols`. -/
def shapeOK (st : SliceLayerCPUState) : Prop :=
  hasShape st.in_tensors_ st.rows st.cols ∧
  st.out_tensors_.length = st.ranges_.length ∧
  (∀ i, i < st.ranges_.length →
    hasShape (st.out_tensors_.getD i []) st.rows
      ((st.ranges_.getD i (0, 0)).2 - (st.ranges_.getD i (0, 0)).1)) ∧
  (∀ p ∈ st.ranges_, p.1 ≤ p.2 ∧ p.2 ≤ st.cols)

/-- The 2×6 input matrix of the spec's concrete scenario: row-major
entries `0..11`. -/
def scenarioInput : Tensor2 := [[0, 1, 2, 3, 4, 5], [6, 7, 8, 9, 10, 11]]

/-- The ranges of the spec's concrete scenario. -/
def scenarioRanges : List (Nat × Nat) := [(0, 4), (2, 6)]

/-- All-ones `R × C` output gradient used in the scenario. -/
def onesMat (R C : Nat) : Tensor2 :=
  List.replicate R (List.replicate C (1 : T))

/-- The layer state produced by constructing the scenario layer. -/
def scenarioState : SliceLayerCPUState :=
  { rows := 2
    cols := 6
    weights_ := []
    wgrad_ := []
    in_tensors_ := scenarioInput
    out_tensors_ := [zeroMat 2 4, zeroMat 2 4]
    ranges_ := scenarioRanges }

/-! ### Basic lemmas about the forward slice -/

lemma length_sliceRow (s w : Nat) (row : List T) :
    (sliceRow s w row).length = min w (row.length - s) := by
  simp [sliceRow]

lemma sliceRow_getD (s w j : Nat) (row : List T) (hj : j < w)
    (hsj : s + j < row.length) :
    (sliceRow s w row).getD j 0 = row.getD (s + j) 0 := by
  have hlen : j < (sliceRow s w row).length := by
    simp [length_sliceRow]; omega
  rw [List.getD_eq_getElem _ _ hlen, List.getD_eq_getElem _ _ hsj]
  simp only [sliceRow]
  rw [List.getElem_take, List.getElem_drop]

lemma length_fprop (input : Tensor2) (ranges : List (Nat × Nat)) :
    (fprop input ranges).length = ranges.length := by
  simp [fprop]

lemma fprop_getD (input : Tensor2) (ranges : List (Nat × Nat)) (i : Nat)
    (hi : i < ranges.length) :
    (fprop input ranges).getD i []
      = fpropRange input (ranges.getD i (0, 0)).1
          ((ranges.getD i (0, 0)).2 - (ranges.getD i (0, 0)).1) := by
  have hi' : i < (fprop input ranges).length := by simpa [length_fprop]
  rw [List.getD_eq_getElem _ _ hi', List.getD_eq_getElem _ _ hi]
  simp [fprop]

lemma length_fpropRange (input : Tensor2) (s w : Nat) :
    (fpropRange input s w).length = input.length := by
  simp [fpropRange]

lemma fpropRange_getD (input : Tensor2) (s w r : Nat) (hr : r < input.length) :
    (fpropRange input s w).getD r [] = sliceRow s w (input.getD r []) := by
  have hr' : r < (fpropRange input s w).length := by simpa [length_fpropRange]
  rw [List.getD_eq_getElem _ _ hr', List.getD_eq_getElem _ _ hr]
  simp [fpropRange]

/-! ### Basic lemmas about the backward accumulation -/

lemma length_zeroMat (R C : Nat) : (zeroMat R C).length = R := by
  simp [zeroMat]

lemma zeroMat_getD_row (R C r : Nat) (hr : r < R) :
    (zeroMat R C).getD r [] = List.replicate C (0 : T) := by
  rw [List.getD_eq_getElem _ _ (by simpa [length_zeroMat] using hr)]
  simp [zeroMat]

lemma length_addRowAt (s : Nat) (g row : List T) :
    (addRowAt s g row).length = row.length := by
  simp [addRowAt]

lemma addRowAt_getD (s : Nat) (g row : List T) (c : Nat) (hc : c < row.length) :
    (addRowAt s g row).getD c 0
      = row.getD c 0 + (if s ≤ c then g.getD (c - s) 0 else 0) := by
  have hc' : c < (addRowAt s g row).length := by simpa [length_addRowAt]
  rw [List.getD_eq_getElem _ _ hc', List.getD_eq_getElem _ _ hc]
  simp [addRowAt]

lemma length_addGrad (s : Nat) (og acc : Tensor2) :
    (addGrad s og acc).length = acc.length := by
  simp [addGrad]

lemma addGrad_getD_row (s : Nat) (og acc : Tensor2) (r : Nat)
    (hr : r < acc.length) :
    (addGrad s og acc).getD r [] = addRowAt s (og.getD r []) (acc.getD r []) := by
  have hr' : r < (addGrad s og acc).length := by simpa [length_addGrad]
  rw [List.getD_eq_getElem _ _ hr', List.getD_eq_getElem _ _ hr]
  simp [addGrad]

lemma foldl_addGrad_length (l : List ((Nat × Nat) × Tensor2)) (acc : Tensor2) :
    (l.foldl (fun acc p => addGrad p.1.1 p.2 acc) acc).length = acc.length := by
  induction l generalizing acc with
  | nil => rfl
  | cons p l ih => rw [List.foldl_cons, ih, length_addGrad]

lemma foldl_addGrad_row_length (l : List ((Nat × Nat) × Tensor2)) (acc : Tensor2)
    (r : Nat) (hr : r < acc.length) :
    ((l.foldl (fun acc p => addGrad p.1.1 p.2 acc) acc).getD r []).length
      = (acc.getD r []).length := by
  induction l generalizing acc with
  | nil => rfl
  | cons p l ih =>
      rw [List.foldl_cons, ih _ (by simpa [length_addGrad] using hr),
        addGrad_getD_row _ _ _ _ hr, length_addRowAt]

lemma foldl_addGrad_getD (l : List ((Nat × Nat) × Tensor2)) (acc : Tensor2)
    (r c : Nat) (hr : r < acc.length) (hc : c < (acc.getD r []).length) :
    ((l.foldl (fun acc p => addGrad p.1.1 p.2 acc) acc).getD r []).getD c 0
      = (acc.getD r []).getD c 0 + (l.map (contrib r c)).sum := by
  induction l generalizing acc with
  | nil => simp
  | cons p l ih =>
      rw [List.foldl_cons,
        ih _ (by simpa [length_addGrad] using hr)
          (by rw [addGrad_getD_row _ _ _ _ hr, length_addRowAt]; exact hc),
        addGrad_getD_row _ _ _ _ hr, addRowAt_getD _ _ _ _ hc]
      simp [contrib, add_assoc]

lemma length_bpropList (R C : Nat) (l : List ((Nat × Nat) × Tensor2)) :
    (bpropList R C l).length = R := by
  unfold bpropList
  rw [foldl_addGrad_length, length_zeroMat]

lemma bpropList_row_length (R C : Nat) (l : List ((Nat × Nat) × Tensor2))
    (r : Nat) (hr : r < R) :
    ((bpropList R C l).getD r []).length = C := by
  unfold bpropList
  rw [foldl_addGrad_row_length _ _ _ (by simpa [length_zeroMat] using hr),
    zeroMat_getD_row _ _ _ hr, List.length_replicate]

lemma bpropList_getD (R C : Nat) (l : List ((Nat × Nat) × Tensor2))
    (r c : Nat) (hr : r < R) (hc : c < C) :
    ((bpropList R C l).getD r []).getD c 0 = (l.map (contrib r c)).sum := by
  unfold bpropList
  rw [foldl_addGrad_getD _ _ _ _ (by simpa [length_zeroMat] using hr)
    (by rw [zeroMat_getD_row _ _ _ hr]; simpa using hc)]
  rw [zeroMat_getD_row _ _ _ hr]
  simp

/-! ### Coverage helpers for the backward pass -/

lemma contrib_eq_zero_of_not_covered (r c : Nat) (p : (Nat × Nat) × Tensor2)
    (R : Nat) (hr : r < R) (hp : hasShape p.2 R (p.1.2 - p.1.1))
    (hnc : ¬(p.1.1 ≤ c ∧ c < p.1.2)) : contrib r c p = 0 := by
  unfold contrib
  by_cases hs : p.1.1 ≤ c
  · rw [if_pos hs]
    apply List.getD_eq_default
    have hrlt : r < p.2.length := by rw [hp.1]; exact hr
    have hrowmem : p.2.getD r [] ∈ p.2 := by
      rw [List.getD_eq_getElem _ _ hrlt]
      exact List.getElem_mem hrlt
    have hlen2 := hp.2 _ hrowmem
    have he : p.1.2 ≤ c := by
      by_contra hcon
      exact hnc ⟨hs, by omega⟩
    omega
  · rw [if_neg hs]

lemma map_contrib_eq_filter (r c R : Nat) (hr : r < R)
    (l : List ((Nat × Nat) × Tensor2))
    (hwf : ∀ p ∈ l, hasShape p.2 R (p.1.2 - p.1.1)) :
    (l.map (contrib r c)).sum
      = ((l.filter (fun p => decide (p.1.1 ≤ c ∧ c < p.1.2))).map
          (fun p => (p.2.getD r []).getD (c - p.1.1) 0)).sum := by
  induction l with
  | nil => rfl
  | cons p l ih =>
      by_cases hcov : p.1.1 ≤ c ∧ c < p.1.2
      · rw [List.map_cons, List.sum_cons, List.filter_cons_of_pos (by simpa using hcov),
          List.map_cons, List.sum_cons,
          ih (fun q hq => hwf q (List.mem_cons_of_mem _ hq))]
        congr 1
        simp [contrib, hcov.1]
      · rw [List.map_cons, List.sum_cons, List.filter_cons_of_neg (by simpa using hcov),
          ih (fun q hq => hwf q (List.mem_cons_of_mem _ hq)),
          contrib_eq_zero_of_not_covered r c p R hr (hwf p (List.mem_cons_self _ _)) hcov,
          zero_add]

lemma zip_wf (ranges : List (Nat × Nat)) (ograds : Tensors2) (R : Nat)
    (hlen : ograds.length = ranges.length)
    (hwf : ∀ i, i < ranges.length →
      hasShape (ograds.getD i []) R
        ((ranges.getD i (0, 0)).2 - (ranges.getD i (0, 0)).1)) :
    ∀ p ∈ ranges.zip ograds, hasShape p.2 R (p.1.2 - p.1.1) := by
  intro p hp
  rw [List.mem_iff_getElem] at hp
  obtain ⟨i, hi, hpi⟩ := hp
  have hir : i < ranges.length := by
    rw [List.length_zip] at hi; omega
  have hio : i < ograds.length := by omega
  have hzip : (ranges.zip ograds)[i] = (ranges[i], ograds[i]) :=
    List.getElem_zip
  rw [← hpi, hzip]
  have h1 : ranges[i] = ranges.getD i (0, 0) := (List.getD_eq_getElem _ _ hir).symm
  have h2 : ograds[i] = ograds.getD i [] := (List.getD_eq_getElem _ _ hio).symm
  rw [h1, h2]
  exact hwf i hir

lemma zip_self_map (l : List (Nat × Nat)) (f : Nat × Nat → Tensor2) :
    l.zip (l.map f) = l.map (fun a => (a, f a)) := by
  have h := List.zip_map' id f l
  simpa using h

lemma all_validRange_iff (C : Nat) (ranges : List (Int × Int)) :
    (ranges.all (validRange C) = true) ↔
      ∀ p ∈ ranges, 0 ≤ p.1 ∧ p.1 < p.2 ∧ p.2 ≤ (C : Int) := by
  simp [List.all_eq_true, validRange, and_assoc]

lemma construct_ok (R C : Nat) (input : Tensor2) (ranges : List (Int × Int))
    (st : SliceLayerCPUState)
    (hok : construct R C input ranges = Except.ok st) :
    ranges.all (validRange C) = true ∧
    st = { rows := R
           cols := C
           weights_ := []
           wgrad_ := []
           in_tensors_ := input
           out_tensors_ := ranges.map (fun p => zeroMat R (p.2 - p.1).toNat)
           ranges_ := ranges.map (fun p => (p.1.toNat, p.2.toNat)) } := by
  by_cases hb : ranges.all (validRange C) = true
  · refine ⟨hb, ?_⟩
    rw [construct, if_pos hb] at hok
    exact (Except.ok.inj hok).symm
  · rw [construct, if_neg hb] at hok
    exact absurd hok (by simp)

/-! ### Claim theorems -/

/-- C1. Forward copy correctness: after construction with an input of shape
`(R, C)` and ranges `[(start_i, end_i)]`, for every range `i` and every row
`r < R`, `fprop` writes `output_i[r, j] = input[r, start_i + j]` for every
`j` with `0 ≤ j < end_i - start_i`. -/
theorem fprop_correct (input : Tensor2) (ranges : List (Nat × Nat)) (R C : Nat)
    (hshape : hasShape input R C)
    (i r j : Nat) (hi : i < ranges.length) (hr : r < R)
    (hj : j < (ranges.getD i (0, 0)).2 - (ranges.getD i (0, 0)).1)
    (hend : (ranges.getD i (0, 0)).2 ≤ C) :
    (((fprop input ranges).getD i []).getD r []).getD j 0
      = (input.getD r []).getD ((ranges.getD i (0, 0)).1 + j) 0 := by
  obtain ⟨hlen, hrow⟩ := hshape
  have hr' : r < input.length := by omega
  rw [fprop_getD _ _ _ hi, fpropRange_getD _ _ _ _ hr']
  apply sliceRow_getD _ _ _ _ hj
  have hmem : input.getD r [] ∈ input := by
    rw [List.getD_eq_getElem _ _ hr']
    exact List.getElem_mem hr'
  have hlenr := hrow _ hmem
  omega

/-- Witness for C1 at the scenario input, range 1, row 0, column offset 2. -/
theorem fprop_correct_witness :
    (((fprop scenarioInput scenarioRanges).getD 1 []).getD 0 []).getD 2 0
      = (scenarioInput.getD 0 []).getD ((scenarioRanges.getD 1 (0, 0)).1 + 2) 0 :=
  fprop_correct scenarioInput scenarioRanges 2 6
    (by exact ⟨rfl, by decide⟩) 1 0 2 (by decide) (by decide) (by decide) (by decide)

/-- C2. Backward algorithm steps: `bprop` starts from a zeroed input-gradient
buffer and then accumulates each range's output gradient into columns
`[start_i, end_i)`; consequently every column covered by no range holds `0`
afterwards. -/
theorem bprop_zero_outside (R C : Nat) (ranges : List (Nat × Nat))
    (ograds : Tensors2)
    (hlen : ograds.length = ranges.length)
    (hwf : ∀ i, i < ranges.length →
      hasShape (ograds.getD i []) R
        ((ranges.getD i (0, 0)).2 - (ranges.getD i (0, 0)).1))
    (r c : Nat) (hr : r < R) (hc : c < C)
    (hout : ∀ p ∈ ranges, ¬(p.1 ≤ c ∧ c < p.2)) :
    bprop R C ranges ograds
        = (ranges.zip ograds).foldl (fun acc p => addGrad p.1.1 p.2 acc) (zeroMat R C)
      ∧ ((bprop R C ranges ograds).getD r []).getD c 0 = 0 := by
  refine ⟨rfl, ?_⟩
  unfold bprop
  rw [bpropList_getD _ _ _ _ _ hr hc]
  apply List.sum_eq_zero
  intro x hx
  rw [List.mem_map] at hx
  obtain ⟨p, hp, hpx⟩ := hx
  rw [← hpx]
  have hpr : p.1 ∈ ranges := (List.of_mem_zip hp).1
  exact contrib_eq_zero_of_not_covered r c p R hr
    (zip_wf ranges ograds R hlen hwf p hp) (hout p.1 hpr)

/-- Witness for C2: scenario ranges leave no column of `[0, 6)` uncovered,
so use ranges `[(0,2)]` on a 2×6 input and check column 3. -/
theorem bprop_zero_outside_witness :
    ((bprop 2 6 [(0, 2)] [onesMat 2 2]).getD 0 []).getD 3 0 = 0 :=
  (bprop_zero_outside 2 6 [(0, 2)] [onesMat 2 2] (by decide)
    (by decide) 0 3 (by decide) (by decide) (by decide)).2

/-- C3. Overlap accumulation: after `bprop`, at every row `r` and column `c`,
the input gradient equals the sum of the contributions of exactly those
ranges covering `c` (each reading its output gradient at offset
`c - start_i`), and this value is unchanged when the `(range, output_grad)`
pairs are processed in any other order. -/
theorem bprop_overlap_sum (R C : Nat) (ranges : List (Nat × Nat))
    (ograds : Tensors2)
    (hlen : ograds.length = ranges.length)
    (hwf : ∀ i, i < ranges.length →
      hasShape (ograds.getD i []) R
        ((ranges.getD i (0, 0)).2 - (ranges.getD i (0, 0)).1))
    (r c : Nat) (hr : r < R) (hc : c < C) :
    ((bprop R C ranges ograds).getD r []).getD c 0
      = (((ranges.zip ograds).filter
            (fun p => decide (p.1.1 ≤ c ∧ c < p.1.2))).map
          (fun p => (p.2.getD r []).getD (c - p.1.1) 0)).sum
    ∧ ∀ l, l.Perm (ranges.zip ograds) →
        ((bpropList R C l).getD r []).getD c 0
          = ((bprop R C ranges ograds).getD r []).getD c 0 := by
  constructor
  · unfold bprop
    rw [bpropList_getD _ _ _ _ _ hr hc]
    exact map_contrib_eq_filter r c R hr _ (zip_wf ranges ograds R hlen hwf)
  · intro l hperm
    unfold bprop
    rw [bpropList_getD _ _ _ _ _ hr hc, bpropList_getD _ _ _ _ _ hr hc]
    exact (hperm.map (contrib r c)).sum_eq

/-- Witness for C3 at the scenario: column 2 is covered by both ranges, and
the reversed processing order gives the same value. -/
theorem bprop_overlap_sum_witness :
    (((bprop 2 6 scenarioRanges [onesMat 2 4, onesMat 2 4]).getD 0 []).getD 2 0
      = (((scenarioRanges.zip [onesMat 2 4, onesMat 2 4]).filter
            (fun p => decide (p.1.1 ≤ 2 ∧ 2 < p.1.2))).map
          (fun p => (p.2.getD 0 []).getD (2 - p.1.1) 0)).sum)
    ∧ ((bpropList 2 6
          ((scenarioRanges.zip [onesMat 2 4, onesMat 2 4]).reverse)).getD 0 []).getD 2 0
        = ((bprop 2 6 scenarioRanges [onesMat 2 4, onesMat 2 4]).getD 0 []).getD 2 0 :=
  ⟨(bprop_overlap_sum 2 6 scenarioRanges [onesMat 2 4, onesMat 2 4] (by decide)
      (by decide) 0 2 (by decide) (by decide)).1,
   (bprop_overlap_sum 2 6 scenarioRanges [onesMat 2 4, onesMat 2 4] (by decide)
      (by decide) 0 2 (by decide) (by decide)).2 _ (List.reverse_perm _)⟩

/-- C4. Construction validation: construction fails with
`InvalidRangeError` whenever some range has `start ≥ end`, `end > C` or
negative `start`; it succeeds exactly when every range satisfies
`0 ≤ start < end ≤ C`, and then produces one output buffer per range. -/
theorem construct_validation (R C : Nat) (input : Tensor2)
    (ranges : List (Int × Int)) :
    ((∃ st, construct R C input ranges = Except.ok st) ↔
      ∀ p ∈ ranges, 0 ≤ p.1 ∧ p.1 < p.2 ∧ p.2 ≤ (C : Int))
    ∧ ((∃ p ∈ ranges, p.1 < 0 ∨ p.2 ≤ p.1 ∨ (C : Int) < p.2) →
        construct R C input ranges = Except.error SliceError.InvalidRangeError)
    ∧ (∀ st, construct R C input ranges = Except.ok st →
        st.out_tensors_.length = ranges.length) := by
  refine ⟨⟨?_, ?_⟩, ?_, ?_⟩
  · rintro ⟨st, hst⟩
    exact (all_validRange_iff C ranges).mp (construct_ok R C input ranges st hst).1
  · intro hv
    exact ⟨_, by rw [construct, if_pos ((all_validRange_iff C ranges).mpr hv)]⟩
  · rintro ⟨p, hp, hbad⟩
    have hb : ¬(ranges.all (validRange C) = true) := by
      intro hb
      have := (all_validRange_iff C ranges).mp hb p hp
      omega
    rw [construct, if_neg hb]
  · intro st hst
    rw [(construct_ok R C input ranges st hst).2]
    simp

/-- Witness for C4: the scenario ranges construct successfully, and the
empty range `(2, 2)` is rejected with `InvalidRangeError`. -/
theorem construct_validation_witness :
    (∃ st, construct 2 6 scenarioInput [((0 : Int), (4 : Int)), (2, 6)]
        = Except.ok st)
    ∧ construct 2 6 scenarioInput [((2 : Int), (2 : Int))]
        = Except.error SliceError.InvalidRangeError :=
  ⟨(construct_validation 2 6 scenarioInput _).1.mpr (by decide),
   (construct_validation 2 6 scenarioInput _).2.1 ⟨(2, 2), by decide, by decide⟩⟩

/-- C5. Round-trip reconstruction: for a valid `R × C` input and pairwise
non-overlapping ranges that cover every column of `[0, C)`, running `fprop`
and reassembling each output at its range's start offset reproduces the
input matrix exactly. -/
theorem fprop_roundtrip (input : Tensor2) (ranges : List (Nat × Nat))
    (R C : Nat)
    (hshape : hasShape input R C)
    (hvalid : ∀ p ∈ ranges, p.1 < p.2 ∧ p.2 ≤ C)
    (_hdisj : ranges.Pairwise (fun p q => p.2 ≤ q.1 ∨ q.2 ≤ p.1))
    (hcover : ∀ c, c < C → ∃ p ∈ ranges, p.1 ≤ c ∧ c < p.2) :
    reassemble R C ranges (fprop input ranges) = input := by
  obtain ⟨hlen, hrow⟩ := hshape
  have hzip : ranges.zip (fprop input ranges)
      = ranges.map (fun a => (a, fpropRange input a.1 (a.2 - a.1))) := by
    unfold fprop
    exact zip_self_map _ _
  apply List.ext_getElem
  · simp [reassemble, hlen]
  · intro r h1 h2
    have hrR : r < R := hlen ▸ h2
    have hrowlen : (input[r]).length = C := hrow _ (List.getElem_mem h2)
    simp only [reassemble]
    rw [List.getElem_map, List.getElem_range]
    apply List.ext_getElem
    · simpa using hrowlen.symm
    · intro c h3 h4
      have hcC : c < C := by simpa using h3
      rw [List.getElem_map, List.getElem_range]
      obtain ⟨p0, hp0mem, hp0cov⟩ := hcover c hcC
      have hsome : (ranges.find? (fun a => decide (a.1 ≤ c ∧ c < a.2))).isSome :=
        List.find?_isSome.mpr ⟨p0, hp0mem, by simpa using hp0cov⟩
      obtain ⟨q, hq⟩ := Option.isSome_iff_exists.mp hsome
      have hqmem := List.mem_of_find?_eq_some hq
      have hqcov : q.1 ≤ c ∧ c < q.2 := by simpa using List.find?_some hq
      have hfind : (ranges.zip (fprop input ranges)).find?
            (fun p => decide (p.1.1 ≤ c ∧ c < p.1.2))
          = some (q, fpropRange input q.1 (q.2 - q.1)) := by
        rw [hzip, List.find?_map]
        have hcomp : ((fun p : (Nat × Nat) × Tensor2 =>
              decide (p.1.1 ≤ c ∧ c < p.1.2)) ∘
            (fun a : Nat × Nat => (a, fpropRange input a.1 (a.2 - a.1))))
            = fun a : Nat × Nat => decide (a.1 ≤ c ∧ c < a.2) := rfl
        rw [hcomp, hq]
        rfl
      rw [hfind]
      have hr' : r < input.length := by omega
      have hgd : input.getD r [] = input[r] := List.getD_eq_getElem _ _ h2
      show ((fpropRange input q.1 (q.2 - q.1)).getD r []).getD (c - q.1) 0
          = (input[r])[c]
      rw [fpropRange_getD _ _ _ _ hr']
      have hC := (hvalid q hqmem).2
      have hslice := sliceRow_getD q.1 (q.2 - q.1) (c - q.1) (input.getD r [])
        (by omega) (by rw [hgd]; omega)
      rw [hslice, hgd]
      have hceq : q.1 + (c - q.1) = c := by omega
      rw [hceq]
      exact List.getD_eq_getElem _ _ h4

/-- Witness for C5: ranges `[(0,2), (2,6)]` partition the scenario input's
six columns and reassembly reproduces it. -/
theorem fprop_roundtrip_witness :
    reassemble 2 6 [(0, 2), (2, 6)] (fprop scenarioInput [(0, 2), (2, 6)])
      = scenarioInput :=
  fprop_roundtrip scenarioInput [(0, 2), (2, 6)] 2 6
    (by exact ⟨rfl, by decide⟩) (by decide) (by decide) (by decide)

lemma shapeOK_fpropStep (st : SliceLayerCPUState) (h : shapeOK st) (b : Bool) :
    shapeOK (fpropStep b st) := by
  obtain ⟨hin, hlen, houts, hrg⟩ := h
  refine ⟨hin, ?_, ?_, hrg⟩
  · simp [fpropStep, length_fprop]
  · intro i hi
    have hi' : i < st.ranges_.length := hi
    show hasShape ((fprop (get_in_tensors b st) st.ranges_).getD i []) st.rows
      ((st.ranges_.getD i (0, 0)).2 - (st.ranges_.getD i (0, 0)).1)
    rw [fprop_getD _ _ _ hi']
    constructor
    · rw [length_fpropRange]
      exact hin.1
    · intro row hrow
      rw [fpropRange, List.mem_map] at hrow
      obtain ⟨row0, hrow0, hrow0e⟩ := hrow
      rw [← hrow0e, length_sliceRow]
      have hc : row0.length = st.cols := hin.2 _ hrow0
      have hp : st.ranges_.getD i (0, 0) ∈ st.ranges_ := by
        rw [List.getD_eq_getElem _ _ hi']
        exact List.getElem_mem hi'
      have hqv := hrg _ hp
      omega

lemma bpropList_mem_length (R C : Nat) (l : List ((Nat × Nat) × Tensor2))
    (row : List T) (hrow : row ∈ bpropList R C l) : row.length = C := by
  rw [List.mem_iff_getElem] at hrow
  obtain ⟨r, hr, hre⟩ := hrow
  have hlb : (bpropList R C l).length = R := length_bpropList R C l
  have hrR : r < R := hlb ▸ hr
  have hgd := List.getD_eq_getElem (bpropList R C l) ([] : List T) hr
  rw [← hre, ← hgd]
  exact bpropList_row_length R C l r hrR

lemma shapeOK_bpropStep (st : SliceLayerCPUState) (h : shapeOK st) :
    shapeOK (bpropStep st) := by
  obtain ⟨_hin, hlen, houts, hrg⟩ := h
  refine ⟨⟨length_bpropList _ _ _, ?_⟩, hlen, houts, hrg⟩
  intro row hrow
  exact bpropList_mem_length st.rows st.cols _ row hrow

lemma construct_shapeOK (R C : Nat) (input : Tensor2)
    (ranges : List (Int × Int)) (st : SliceLayerCPUState)
    (hok : construct R C input ranges = Except.ok st)
    (hshape : hasShape input R C) :
    st.rows = R ∧ st.cols = C ∧ shapeOK st := by
  obtain ⟨hb, hst⟩ := construct_ok R C input ranges st hok
  have hv := (all_validRange_iff C ranges).mp hb
  subst hst
  refine ⟨rfl, rfl, hshape, by simp, ?_, ?_⟩
  · intro i hi
    have hi' : i < ranges.length := by simpa using hi
    have ho : (ranges.map (fun p => zeroMat R (p.2 - p.1).toNat)).getD i []
        = zeroMat R ((ranges[i]).2 - (ranges[i]).1).toNat := by
      rw [List.getD_eq_getElem _ _ (by simpa using hi'), List.getElem_map]
    have hrgd : (ranges.map (fun p => (p.1.toNat, p.2.toNat))).getD i (0, 0)
        = ((ranges[i]).1.toNat, (ranges[i]).2.toNat) := by
      rw [List.getD_eq_getElem _ _ (by simpa using hi'), List.getElem_map]
    show hasShape ((ranges.map fun p => zeroMat R (p.2 - p.1).toNat).getD i []) R _
    rw [ho, hrgd]
    have hvi := hv _ (List.getElem_mem hi')
    have heq : ((ranges[i]).2 - (ranges[i]).1).toNat
        = (ranges[i]).2.toNat - (ranges[i]).1.toNat := by omega
    rw [heq]
    refine ⟨length_zeroMat _ _, ?_⟩
    intro row hrow
    rw [zeroMat] at hrow
    rw [List.eq_of_mem_replicate hrow]
    exact List.length_replicate _ _
  · intro p hp
    rw [List.mem_map] at hp
    obtain ⟨q, hq, hqe⟩ := hp
    have hvq := hv q hq
    rw [← hqe]
    refine ⟨by omega, ?_⟩
    show q.2.toNat ≤ C
    omega

/-- C6. Shape invariant: after successful construction with an `R × C`
input, every output buffer `i` has row count `R` and column count
`end_i - start_i`, every stored range's end is at most `C`, and these
shapes (together with the stored ranges) are preserved by every subsequent
`fprop` and `bprop` call. -/
theorem shape_invariant (R C : Nat) (input : Tensor2)
    (ranges : List (Int × Int)) (st : SliceLayerCPUState)
    (hok : construct R C input ranges = Except.ok st)
    (hshape : hasShape input R C) :
    (st.rows = R ∧ st.cols = C ∧ shapeOK st)
    ∧ (∀ st' : SliceLayerCPUState, shapeOK st' →
        (∀ b, shapeOK (fpropStep b st')
          ∧ (fpropStep b st').rows = st'.rows
          ∧ (fpropStep b st').cols = st'.cols
          ∧ (fpropStep b st').ranges_ = st'.ranges_)
        ∧ shapeOK (bpropStep st')
        ∧ (bpropStep st').rows = st'.rows
        ∧ (bpropStep st').cols = st'.cols
        ∧ (bpropStep st').ranges_ = st'.ranges_) :=
  ⟨construct_shapeOK R C input ranges st hok hshape,
   fun st' h =>
     ⟨fun b => ⟨shapeOK_fpropStep st' h b, rfl, rfl, rfl⟩,
      shapeOK_bpropStep st' h, rfl, rfl, rfl⟩⟩

/-- Witness for C6 at the scenario construction. -/
theorem shape_invariant_witness :
    scenarioState.rows = 2 ∧ scenarioState.cols = 6 ∧ shapeOK scenarioState :=
  (shape_invariant 2 6 scenarioInput [(0, 4), (2, 6)] scenarioState rfl
    (by exact ⟨rfl, by decide⟩)).1

/-- C7. Concrete scenario: on the 2×6 input `0..11` with ranges
`[(0,4), (2,6)]`, `fprop` yields columns 0–3 and columns 2–5 of each row,
and `bprop` with all-ones output gradients yields input gradient 2 at
columns 2–3 and 1 at columns 0–1 and 4–5 of every row. -/
theorem scenario_concrete :
    fprop scenarioInput scenarioRanges
      = [[[0, 1, 2, 3], [6, 7, 8, 9]], [[2, 3, 4, 5], [8, 9, 10, 11]]]
    ∧ bprop 2 6 scenarioRanges [onesMat 2 4, onesMat 2 4]
      = [[1, 1, 2, 2, 1, 1], [1, 1, 2, 2, 1, 1]] := by
  constructor <;> rfl

/-- C8. Forward frame property: `fprop` changes only the output buffers —
the input tensor, stored ranges, weights and weight gradients are untouched
— and the outputs it writes are a deterministic function of the input
tensor and the ranges alone. -/
theorem fprop_frame (b : Bool) (st : SliceLayerCPUState) :
    (fpropStep b st).in_tensors_ = st.in_tensors_
    ∧ (fpropStep b st).ranges_ = st.ranges_
    ∧ (fpropStep b st).weights_ = st.weights_
    ∧ (fpropStep b st).wgrad_ = st.wgrad_
    ∧ (fpropStep b st).rows = st.rows
    ∧ (fpropStep b st).cols = st.cols
    ∧ ∀ (st' : SliceLayerCPUState) (b' : Bool),
        st'.in_tensors_ = st.in_tensors_ → st'.ranges_ = st.ranges_ →
        (fpropStep b' st').out_tensors_ = (fpropStep b st).out_tensors_ := by
  refine ⟨rfl, rfl, rfl, rfl, rfl, rfl, ?_⟩
  intro st' b' h1 h2
  simp [fpropStep, get_in_tensors, h1, h2]

/-- Witness for C8: two layer states sharing input and ranges produce the
same outputs regardless of the flag. -/
theorem fprop_frame_witness :
    (fpropStep false scenarioState).out_tensors_
      = (fpropStep true scenarioState).out_tensors_ :=
  (fprop_frame true scenarioState).2.2.2.2.2.2 scenarioState false rfl rfl

/-- C9. The result of `fprop` is independent of its `is_train` argument:
`get_in_tensors` returns `in_tensors_` for either flag, hence
`fprop(true)` and `fprop(false)` produce identical states. -/
theorem fprop_is_train_independent (b b' : Bool) (st : SliceLayerCPUState) :
    get_in_tensors b st = get_in_tensors b' st ∧ fpropStep b st = fpropStep b' st :=
  ⟨rfl, rfl⟩

/-- C10. No trainable parameters: `weights_` and `wgrad_` are empty after
construction and are untouched by `fprop` and `bprop`; `bprop` also leaves
the output tensors and the stored ranges unchanged. -/
theorem no_trainable_params (R C : Nat) (input : Tensor2)
    (ranges : List (Int × Int)) (st : SliceLayerCPUState)
    (hok : construct R C input ranges = Except.ok st) :
    st.weights_ = [] ∧ st.wgrad_ = []
    ∧ ∀ (b : Bool) (st' : SliceLayerCPUState),
        (fpropStep b st').weights_ = st'.weights_
        ∧ (fpropStep b st').wgrad_ = st'.wgrad_
        ∧ (bpropStep st').weights_ = st'.weights_
        ∧ (bpropStep st').wgrad_ = st'.wgrad_
        ∧ (bpropStep st').out_tensors_ = st'.out_tensors_
        ∧ (bpropStep st').ranges_ = st'.ranges_ := by
  obtain ⟨hb, hst⟩ := construct_ok R C input ranges st hok
  subst hst
  exact ⟨rfl, rfl, fun b st' => ⟨rfl, rfl, rfl, rfl, rfl, rfl⟩⟩

/-- Witness for C10 at the scenario construction. -/
theorem no_trainable_params_witness :
    scenarioState.weights_ = [] ∧ scenarioState.wgrad_ = [] :=
  ⟨(no_trainable_params 2 6 scenarioInput [(0, 4), (2, 6)] scenarioState rfl).1,
   (no_trainable_params 2 6 scenarioInput [(0, 4), (2, 6)] scenarioState rfl).2.1⟩

end HugeCTR
